import Mathlib

/-!
Verification of the precovery search engine (`precovery/precovery_db.py`).

The engine's pure logic is shallowly embedded over `ℚ` (Python floats become
exact rationals; the claims under study concern control flow, comparisons and
arithmetic formulas, none of which depend on rounding).  The orbital-dynamics
collaborator and the frame index/store (`orbit.py`, `frame_db.py`,
`healpix_geom.py`, `spherical_geom.py`) are external to the translated source;
they are represented by an explicit environment of function fields whose
behaviour, where a claim needs it, is constrained by hypotheses drawn from the
specification of those collaborators.
-/

namespace Precovery

/-- `DEGREE = 1.0` from the source. -/
def DEGREE : ℚ := 1

/-- `ARCMIN = DEGREE / 60` from the source. -/
def ARCMIN : ℚ := DEGREE / 60

/-- `ARCSEC = ARCMIN / 60` from the source. -/
def ARCSEC : ℚ := ARCMIN / 60

/-- `CANDIDATE_K = 15` from the source. -/
def CANDIDATE_K : Nat := 15

/-- `CANDIDATE_NSIDE = 2**CANDIDATE_K` from the source. -/
def CANDIDATE_NSIDE : Nat := 2 ^ CANDIDATE_K

/-- Modelled from the spec: `observation.py` is not part of the translated
source.  One detection: identifier, epoch (MJD, UTC), right
ascension/declination in degrees with 1-sigma uncertainties (radians in the
original storage, converted on output), magnitude and its uncertainty. -/
structure Observation where
  id : String
  mjd : ℚ
  ra : ℚ
  dec : ℚ
  ra_sigma : ℚ
  dec_sigma : ℚ
  mag : ℚ
  mag_sigma : ℚ
deriving DecidableEq, Repr

/-- Modelled from the spec: `frame_db.py` is not part of the translated
source.  Frame descriptor: metadata for one ingested batch of observations
sharing an observatory code and one exposure. -/
structure HealpixFrame where
  dataset_id : String
  obscode : String
  exposure_id : String
  filter : String
  exposure_mjd_start : ℚ
  exposure_mjd_mid : ℚ
  exposure_duration : ℚ
  healpixel : Nat
deriving DecidableEq, Repr

/-- Modelled from the spec: `orbit.py` is not part of the translated source.
An Ephemeris is a predicted sky position (and its rate of change) for a body
at a given time and observatory. -/
structure Ephemeris where
  mjd : ℚ
  ra : ℚ
  dec : ℚ
  ra_velocity : ℚ
  dec_velocity : ℚ
deriving DecidableEq, Repr

/-- Modelled from the spec: integrator fidelities of the propagation
collaborator, `PropagationIntegrator.N_BODY` (high fidelity) and
`PropagationIntegrator.TWO_BODY` (cheap). -/
inductive PropagationIntegrator
  | nBody
  | twoBody
deriving DecidableEq, Repr

/-- Modelled from the spec: the time scale declared on every collaborator
call; database-derived epochs are UTC. -/
inductive EpochTimescale
  | utc
  | tt
deriving DecidableEq, Repr

/-- Modelled from the spec: the external collaborators of the engine, over an
abstract orbit-state type `O`.

* `haversine` is `spherical_geom.haversine_distance_deg` (argument order
  `ra1 ra2 dec1 dec2`, as in the source call sites);
* `radecToHealpixel` is `healpix_geom.radec_to_healpixel (ra, dec, nside)`;
* `propagate` and `computeEphemeris` are the orbit collaborator operations,
  one output per requested epoch;
* `mjdBounds` is `FrameIndex.mjd_bounds` (`none` models the `EmptyIndex`
  failure on a store with no frames);
* `windowCenters`, `propagationTargets`, `getFrames`, `getFramesForRaDec`
  are the frame-index queries; `iterateObservations` reads a frame's
  observations from the store; `healpixNside` is the index resolution. -/
structure Env (O : Type) where
  haversine : ℚ → ℚ → ℚ → ℚ → ℚ
  radecToHealpixel : ℚ → ℚ → Nat → Nat
  propagate : O → List ℚ → PropagationIntegrator → EpochTimescale → List O
  computeEphemeris :
    O → String → List ℚ → PropagationIntegrator → EpochTimescale → List Ephemeris
  mjdBounds : Option (ℚ × ℚ)
  windowCenters : ℚ → ℚ → ℚ → List (ℚ × String)
  propagationTargets : ℚ → ℚ → String → List (ℚ × List Nat)
  getFrames : String → ℚ → Nat → List HealpixFrame
  getFramesForRaDec : ℚ → ℚ → String → List HealpixFrame
  iterateObservations : HealpixFrame → List Observation
  healpixNside : Nat

/-- Modelled from the spec: `Ephemeris.distance` of `orbit.py`, the
vectorized angular separation between an ephemeris and an observation,
computed with the same great-circle primitive as the rest of the engine. -/
def Ephemeris.distance {O : Type} (env : Env O) (e : Ephemeris)
    (o : Observation) : ℚ :=
  env.haversine e.ra o.ra e.dec o.dec

/-- `PrecoveryCandidate` dataclass from the source. -/
structure PrecoveryCandidate where
  mjd : ℚ
  ra_deg : ℚ
  dec_deg : ℚ
  ra_sigma_arcsec : ℚ
  dec_sigma_arcsec : ℚ
  mag : ℚ
  mag_sigma : ℚ
  exposure_mjd_start : ℚ
  exposure_mjd_mid : ℚ
  filter : String
  obscode : String
  exposure_id : String
  exposure_duration : ℚ
  observation_id : String
  healpix_id : Nat
  pred_ra_deg : ℚ
  pred_dec_deg : ℚ
  pred_vra_degpday : ℚ
  pred_vdec_degpday : ℚ
  delta_ra_arcsec : ℚ
  delta_dec_arcsec : ℚ
  distance_arcsec : ℚ
  dataset_id : String
deriving DecidableEq, Repr

/-- `PrecoveryCandidate.from_observed_ephem` from the source. -/
def PrecoveryCandidate.fromObservedEphem {O : Type} (env : Env O)
    (obs : Observation) (frame : HealpixFrame) (ephem : Ephemeris) :
    PrecoveryCandidate :=
  { observation_id := obs.id
    mjd := obs.mjd
    ra_deg := obs.ra
    dec_deg := obs.dec
    ra_sigma_arcsec := obs.ra_sigma / ARCSEC
    dec_sigma_arcsec := obs.dec_sigma / ARCSEC
    mag := obs.mag
    mag_sigma := obs.mag_sigma
    exposure_mjd_start := frame.exposure_mjd_start
    exposure_mjd_mid := frame.exposure_mjd_mid
    filter := frame.filter
    obscode := frame.obscode
    exposure_id := frame.exposure_id
    exposure_duration := frame.exposure_duration
    dataset_id := frame.dataset_id
    healpix_id := env.radecToHealpixel ephem.ra ephem.dec CANDIDATE_NSIDE
    pred_ra_deg := ephem.ra
    pred_dec_deg := ephem.dec
    pred_vra_degpday := ephem.ra_velocity
    pred_vdec_degpday := ephem.dec_velocity
    delta_ra_arcsec := (obs.ra - ephem.ra) / ARCSEC
    delta_dec_arcsec := (obs.dec - ephem.dec) / ARCSEC
    distance_arcsec := env.haversine obs.ra ephem.ra obs.dec ephem.dec / ARCSEC }

/-- `FrameCandidate` dataclass from the source. -/
structure FrameCandidate where
  exposure_mjd_start : ℚ
  exposure_mjd_mid : ℚ
  filter : String
  obscode : String
  exposure_id : String
  exposure_duration : ℚ
  healpix_id : Nat
  pred_ra_deg : ℚ
  pred_dec_deg : ℚ
  pred_vra_degpday : ℚ
  pred_vdec_degpday : ℚ
  dataset_id : String
deriving DecidableEq, Repr

/-- `FrameCandidate.from_frame` from the source. -/
def FrameCandidate.fromFrame {O : Type} (env : Env O) (frame : HealpixFrame)
    (ephem : Ephemeris) : FrameCandidate :=
  { exposure_mjd_start := frame.exposure_mjd_start
    exposure_mjd_mid := frame.exposure_mjd_mid
    filter := frame.filter
    obscode := frame.obscode
    exposure_id := frame.exposure_id
    exposure_duration := frame.exposure_duration
    dataset_id := frame.dataset_id
    healpix_id := env.radecToHealpixel ephem.ra ephem.dec CANDIDATE_NSIDE
    pred_ra_deg := ephem.ra
    pred_dec_deg := ephem.dec
    pred_vra_degpday := ephem.ra_velocity
    pred_vdec_degpday := ephem.dec_velocity }

/-- The source returns `Union[PrecoveryCandidate, FrameCandidate]`; the
closed sum of the two result variants. -/
inductive Candidate
  | precovery (c : PrecoveryCandidate)
  | frame (c : FrameCandidate)
deriving DecidableEq, Repr

/-- The sort key of `sort_candidates`:
`(c.mjd, c.observation_id)` for a `PrecoveryCandidate`,
`(c.exposure_mjd_mid, "")` for a `FrameCandidate`. -/
def Candidate.sortKey : Candidate → ℚ × String
  | .precovery c => (c.mjd, c.observation_id)
  | .frame c => (c.exposure_mjd_mid, "")

/-- Python's lexicographic comparison of the two-component sort keys. -/
def candLE (a b : Candidate) : Prop :=
  a.sortKey.1 < b.sortKey.1 ∨
    (a.sortKey.1 = b.sortKey.1 ∧ a.sortKey.2 ≤ b.sortKey.2)

instance : DecidableRel candLE := fun a b => by
  unfold candLE; infer_instance

instance : IsTotal Candidate candLE := by
  constructor
  intro a b
  rcases lt_trichotomy a.sortKey.1 b.sortKey.1 with h | h | h
  · exact Or.inl (Or.inl h)
  · rcases le_total a.sortKey.2 b.sortKey.2 with h2 | h2
    · exact Or.inl (Or.inr ⟨h, h2⟩)
    · exact Or.inr (Or.inr ⟨h.symm, h2⟩)
  · exact Or.inr (Or.inl h)

instance : IsTrans Candidate candLE := by
  constructor
  intro a b c hab hbc
  rcases hab with h1 | ⟨h1, h1s⟩
  · rcases hbc with h2 | ⟨h2, _⟩
    · exact Or.inl (h1.trans h2)
    · exact Or.inl (h2 ▸ h1)
  · rcases hbc with h2 | ⟨h2, h2s⟩
    · exact Or.inl (h1 ▸ h2)
    · exact Or.inr ⟨h1.trans h2, h1s.trans h2s⟩

/-- `sort_candidates` from the source: Python's `sorted` is a stable sort by
the key above, and the stable sort by a total preorder is unique, so it is
modelled by stable insertion sort. -/
def sortCandidates (candidates : List Candidate) : List Candidate :=
  List.insertionSort candLE candidates

/-- `PrecoveryDatabase._find_matches_using_per_obs_timestamps` from the
source.  The Python code indexes `orbit.propagate(...)[0]`; the collaborator
contract guarantees one propagated state per requested epoch, so the list is
nonempty there. -/
def findMatchesUsingPerObsTimestamps {O : Type} (env : Env O)
    (frame : HealpixFrame) (orbit : O) (observations : List Observation)
    (tolerance : ℚ) : List PrecoveryCandidate :=
  let meanMjd := (observations.map (fun o => o.mjd)).sum / (observations.length : ℚ)
  match env.propagate orbit [meanMjd] .nBody .utc with
  | [] => []
  | meanOrbitState :: _ =>
    let ephemerides := env.computeEphemeris meanOrbitState frame.obscode
      (observations.map (fun o => o.mjd)) .twoBody .utc
    let pairs := observations.zip ephemerides
    (pairs.filter
        (fun p => decide (env.haversine p.2.ra p.1.ra p.2.dec p.1.dec < tolerance))).map
      (fun p => PrecoveryCandidate.fromObservedEphem env p.1 frame p.2)

/-- `PrecoveryDatabase._find_matches_in_frame` from the source. -/
def findMatchesInFrame {O : Type} (env : Env O) (frame : HealpixFrame)
    (orbit : O) (ephem : Ephemeris) (tolerance : ℚ) : List PrecoveryCandidate :=
  let observations := env.iterateObservations frame
  if !(observations.all fun o => decide (o.mjd = ephem.mjd)) then
    findMatchesUsingPerObsTimestamps env frame orbit observations tolerance
  else
    let matching := observations.filter
      (fun o => decide (Ephemeris.distance env ephem o < tolerance))
    matching.map (fun o => PrecoveryCandidate.fromObservedEphem env o frame ephem)

/-- Body of the frame loop in `PrecoveryDatabase._check_frames`: yield every
match found in the frame, and, when there were none and frame candidates were
requested, yield one `FrameCandidate` built from the window-epoch ephemeris. -/
def frameOutput {O : Type} (env : Env O) (orbit : O) (ephem : Ephemeris)
    (tolerance : ℚ) (includeFrameCandidates : Bool) (f : HealpixFrame) :
    List Candidate :=
  let ms := findMatchesInFrame env f orbit ephem tolerance
  ms.map Candidate.precovery ++
    (if ms.isEmpty && includeFrameCandidates then
      [Candidate.frame (FrameCandidate.fromFrame env f ephem)]
    else [])

/-- `PrecoveryDatabase._check_frames` from the source. -/
def checkFrames {O : Type} (env : Env O) (orbit : O) (healpixels : List Nat)
    (obscode : String) (mjds : List ℚ) (tolerance : ℚ)
    (includeFrameCandidates : Bool) : List Candidate :=
  let allEphems := env.computeEphemeris orbit obscode mjds .nBody .utc
  (allEphems.zip (mjds.zip healpixels)).flatMap
    (fun t =>
      (env.getFrames obscode t.2.1 t.2.2).flatMap
        (frameOutput env orbit t.1 tolerance includeFrameCandidates))

/-- The filtering loop over propagation targets in
`PrecoveryDatabase._check_windows`: zip the candidate epochs, their occupied
pixel sets and the two-body predicted pixels positionally, and keep the
`(mjd, approx_healpix)` pairs whose predicted pixel occurs in the occupied
set. -/
def keepStage (targets : List (ℚ × List Nat)) (approxHealpixels : List Nat) :
    List (ℚ × Nat) :=
  ((targets.map (fun t => t.1)).zip
      ((targets.map (fun t => t.2)).zip approxHealpixels)).filterMap
    (fun t => if t.2.2 ∈ t.2.1 then some (t.1, t.2.2) else none)

/-- The start-of-window clamp in `PrecoveryDatabase._check_windows`: if the
window start is earlier than the caller's `start_mjd` (when defined), use
the caller's bound instead. -/
def clipStart (startMjd : Option ℚ) (startMjdWindow : ℚ) : ℚ :=
  match startMjd with
  | some s => if startMjdWindow < s then s else startMjdWindow
  | none => startMjdWindow

/-- The end-of-window clamp in `PrecoveryDatabase._check_windows`: if the
window end is later than the caller's `end_mjd` (when defined), use the
caller's bound instead. -/
def clipEnd (endMjd : Option ℚ) (endMjdWindow : ℚ) : ℚ :=
  match endMjd with
  | some e => if endMjdWindow > e then e else endMjdWindow
  | none => endMjdWindow

/-- Body of the per-window loop in `PrecoveryDatabase._check_windows`:
clip the window to the caller's bounds, fetch the propagation targets, filter
them by the two-body predicted pixel, and deeply check frames for the
surviving epochs. -/
def windowBody {O : Type} (env : Env O) (obscode : String) (tolerance : ℚ)
    (startMjd endMjd : Option ℚ) (windowSize : ℚ)
    (includeFrameCandidates : Bool) (orbitWindow : O) (windowMidpoint : ℚ) :
    List Candidate :=
  let startMjdWindow := clipStart startMjd (windowMidpoint - windowSize / 2)
  let endMjdWindow := clipEnd endMjd (windowMidpoint + windowSize / 2)
  let targets := env.propagationTargets startMjdWindow endMjdWindow obscode
  let testMjds := targets.map (fun t => t.1)
  let approxEphems := env.computeEphemeris orbitWindow obscode testMjds .twoBody .utc
  let approxHealpixels := approxEphems.map
    (fun a => env.radecToHealpixel a.ra a.dec env.healpixNside)
  let kept := keepStage targets approxHealpixels
  let keepMjds := kept.map (fun k => k.1)
  let keepApproxHealpixels := kept.map (fun k => k.2)
  if keepMjds.length > 0 then
    checkFrames env orbitWindow keepApproxHealpixels obscode keepMjds tolerance
      includeFrameCandidates
  else []

/-- `PrecoveryDatabase._check_windows` from the source: propagate to all
window centers with the high-fidelity integrator in one batch, then process
each window.  (The window-center ephemeris and its pixel are computed and
zipped exactly as in the source, though the loop body does not consume
them.) -/
def checkWindows {O : Type} (env : Env O) (orbit : O)
    (windowMidpoints : List ℚ) (obscode : String) (tolerance : ℚ)
    (startMjd endMjd : Option ℚ) (windowSize : ℚ)
    (includeFrameCandidates : Bool) : List Candidate :=
  let orbitPropagated := env.propagate orbit windowMidpoints .nBody .utc
  let windowEphems := env.computeEphemeris orbit obscode windowMidpoints .nBody .utc
  let windowHealpixels := windowEphems.map
    (fun w => env.radecToHealpixel w.ra w.dec env.healpixNside)
  (windowMidpoints.zip (windowEphems.zip (windowHealpixels.zip orbitPropagated))).flatMap
    (fun t =>
      windowBody env obscode tolerance startMjd endMjd windowSize
        includeFrameCandidates t.2.2.2 t.1)

/-- `itertools.groupby(windows, key=lambda pair: pair[1])` as used in
`precover`: group consecutive `(mjd, obscode)` pairs sharing an obscode,
keeping the group key and the list of midpoints. -/
def groupConsec : List (ℚ × String) → List (String × List ℚ)
  | [] => []
  | (m, c) :: rest =>
    match groupConsec rest with
    | [] => [(c, [m])]
    | (c2, ms) :: gs =>
      if c = c2 then (c, m :: ms) :: gs else (c, [m]) :: (c2, ms) :: gs

/-- The body of `precover` after both bounds have been resolved to concrete
epochs. -/
def precoverCore {O : Type} (env : Env O) (orbit : O) (tolerance : ℚ)
    (startMjd endMjd : ℚ) (windowSize : ℚ) (includeFrameCandidates : Bool) :
    List Candidate :=
  let windows := env.windowCenters startMjd endMjd windowSize
  let found := (groupConsec windows).flatMap
    (fun g =>
      checkWindows env orbit g.2 g.1 tolerance (some startMjd) (some endMjd)
        windowSize includeFrameCandidates)
  if found.length > 0 then sortCandidates found else found

/-- The failures `precover` can surface: `EmptyIndex` from
`FrameIndex.mjd_bounds` when a global bound is requested of a store with no
frames. -/
inductive PrecoveryError
  | emptyIndex
deriving DecidableEq, Repr

/-- `PrecoveryDatabase.precover` from the source: resolve an omitted bound
from `mjd_bounds()`, search window groups per obscode, and sort the matches
when there are any. -/
def precover {O : Type} (env : Env O) (orbit : O) (tolerance : ℚ)
    (startMjd endMjd : Option ℚ) (windowSize : ℚ)
    (includeFrameCandidates : Bool) :
    Except PrecoveryError (List Candidate) :=
  match startMjd, endMjd with
  | some s, some e =>
    .ok (precoverCore env orbit tolerance s e windowSize includeFrameCandidates)
  | s?, e? =>
    match env.mjdBounds with
    | none => .error .emptyIndex
    | some b =>
      .ok (precoverCore env orbit tolerance (s?.getD b.1) (e?.getD b.2)
        windowSize includeFrameCandidates)

/-- `PrecoveryDatabase.find_observations_in_region` from the source. -/
def findObservationsInRegion {O : Type} (env : Env O) (ra dec : ℚ)
    (obscode : String) : List Observation :=
  (env.getFramesForRaDec ra dec obscode).flatMap
    (fun f => env.iterateObservations f)

/-- `PrecoveryDatabase.find_observations_in_radius` from the source. -/
def findObservationsInRadius {O : Type} (env : Env O) (ra dec : ℚ)
    (tolerance : ℚ) (obscode : String) : List Observation :=
  (findObservationsInRegion env ra dec obscode).filter
    (fun o => decide (env.haversine o.ra ra o.dec dec ≤ tolerance))

/-- The time key and tie-break of a candidate restated per result variant:
`true` exactly on the `FrameCandidate` variant. -/
def Candidate.isFrameCandidate : Candidate → Bool
  | .precovery _ => false
  | .frame _ => true

/-- The exposure-midpoint epoch recorded on either result variant. -/
def Candidate.exposureMjdMid : Candidate → ℚ
  | .precovery c => c.exposure_mjd_mid
  | .frame c => c.exposure_mjd_mid

/-- The epoch associated with a candidate: the observation epoch for a
`PrecoveryCandidate`, the exposure midpoint for a `FrameCandidate`. -/
def Candidate.assocMjd : Candidate → ℚ
  | .precovery c => c.mjd
  | .frame c => c.exposure_mjd_mid

/-- Modelled from the spec: a store with zero frames.  `mjd_bounds` fails
with `EmptyIndex`, and `window_centers` partitions the exposure epochs of the
store, of which there are none. -/
def IndexEmpty {O : Type} (env : Env O) : Prop :=
  env.mjdBounds = none ∧ ∀ s e w, env.windowCenters s e w = []

/-- Spec-side restatement of §4.4 step 7 for `_find_matches_in_frame`:
branch on whether every observation's epoch equals the query ephemeris epoch
exactly; if so, one batch of angular separations against the single
ephemeris with the strict tolerance test; otherwise propagate with the
high-fidelity integrator to the frame's mean observation epoch and reach
each individual observation epoch with the cheap integrator, applying the
same strict tolerance test. -/
def matchesInFrameSpec {O : Type} (env : Env O) (frame : HealpixFrame)
    (orbit : O) (ephem : Ephemeris) (tolerance : ℚ) : List PrecoveryCandidate :=
  let observations := env.iterateObservations frame
  if ∀ o ∈ observations, o.mjd = ephem.mjd then
    (observations.filter
        (fun o => decide (Ephemeris.distance env ephem o < tolerance))).map
      (fun o => PrecoveryCandidate.fromObservedEphem env o frame ephem)
  else
    let meanMjd := (observations.map (fun o => o.mjd)).sum / (observations.length : ℚ)
    match env.propagate orbit [meanMjd] PropagationIntegrator.nBody EpochTimescale.utc with
    | [] => []
    | meanOrbitState :: _ =>
      let eph := env.computeEphemeris meanOrbitState frame.obscode
        (observations.map (fun o => o.mjd)) PropagationIntegrator.twoBody EpochTimescale.utc
      ((observations.zip eph).filter
          (fun p => decide (env.haversine p.2.ra p.1.ra p.2.dec p.1.dec < tolerance))).map
        (fun p => PrecoveryCandidate.fromObservedEphem env p.1 frame p.2)

/-- Spec-side restatement of §4.4 step 5 for the per-window pixel filter:
pair each candidate epoch with its predicted pixel, keep exactly those whose
predicted pixel is among that epoch's occupied pixels. -/
def keepSpec (targets : List (ℚ × List Nat)) (predictedPixels : List Nat) :
    List (ℚ × Nat) :=
  ((targets.zip predictedPixels).filter (fun p => decide (p.2 ∈ p.1.2))).map
    (fun p => (p.1.1, p.2))

/-- Spec-side restatement of §4.4 steps 3-7 for one window: clip the window
to the caller's bounds, query the propagation targets, filter epochs by the
cheap-integrator predicted pixel, and inspect frames (which recompute the
ephemeris with the high-fidelity integrator) only for surviving epochs; a
window with no surviving epoch contributes nothing. -/
def windowBodySpec {O : Type} (env : Env O) (obscode : String) (tolerance : ℚ)
    (startMjd endMjd : Option ℚ) (windowSize : ℚ)
    (includeFrameCandidates : Bool) (orbitWindow : O) (windowMidpoint : ℚ) :
    List Candidate :=
  let startMjdWindow := clipStart startMjd (windowMidpoint - windowSize / 2)
  let endMjdWindow := clipEnd endMjd (windowMidpoint + windowSize / 2)
  let targets := env.propagationTargets startMjdWindow endMjdWindow obscode
  let predictedPixels :=
    (env.computeEphemeris orbitWindow obscode (targets.map (fun t => t.1))
        PropagationIntegrator.twoBody EpochTimescale.utc).map
      (fun a => env.radecToHealpixel a.ra a.dec env.healpixNside)
  let surviving := keepSpec targets predictedPixels
  if surviving = [] then []
  else
    checkFrames env orbitWindow (surviving.map (fun k => k.2)) obscode
      (surviving.map (fun k => k.1)) tolerance includeFrameCandidates

/-- The outcomes `PrecoveryDatabase.from_dir` can raise. -/
inductive OpenError
  | noConfigFile
  | versionMismatch
deriving DecidableEq, Repr

/-- What a successful `PrecoveryDatabase.from_dir` reports in the model:
whether a fresh store was created, and whether a version-mismatch warning was
logged. -/
structure OpenResult where
  createdNew : Bool
  warnedVersionMismatch : Bool
deriving DecidableEq, Repr

/-- The version gate of `PrecoveryDatabase.from_dir` (source lines 195-207):
a differing persisted build version raises unless `allow_version_mismatch`,
in which case a warning is logged and the open continues.  Returns whether
the warning was logged. -/
def versionGate (buildVersion runningVersion : String)
    (allowVersionMismatch : Bool) : Except OpenError Bool :=
  if buildVersion ≠ runningVersion then
    if !allowVersionMismatch then .error .versionMismatch
    else .ok true
  else .ok false

/-- `PrecoveryDatabase.from_dir` from the source, over the observable state
of the directory: whether it exists, whether it holds a config file, and the
persisted build version.  A missing directory with `create` set returns a
fresh store; a missing config file raises unless `create` is set, in which
case the default config is written (its build version is the running engine
version, per the spec's persisted-layout contract) before the version
gate. -/
def fromDir (dirPresent configPresent : Bool)
    (buildVersion runningVersion : String) (create allowVersionMismatch : Bool) :
    Except OpenError OpenResult :=
  if !dirPresent && create then .ok ⟨true, false⟩
  else
    match (if dirPresent && configPresent then some buildVersion else none) with
    | none =>
      if !create then .error .noConfigFile
      else (versionGate runningVersion runningVersion allowVersionMismatch).map
        (fun w => ⟨false, w⟩)
    | some bv =>
      (versionGate bv runningVersion allowVersionMismatch).map
        (fun w => ⟨false, w⟩)

/-! Concrete instances used to exercise the theorems on closed inputs. -/

/-- A concrete frame descriptor. -/
def wFrame : HealpixFrame :=
  { dataset_id := "ds"
    obscode := "X"
    exposure_id := "e1"
    filter := "r"
    exposure_mjd_start := 49/5
    exposure_mjd_mid := 10
    exposure_duration := 2/5
    healpixel := 0 }

/-- A concrete observation at the frame epoch. -/
def wObsA : Observation :=
  { id := "a", mjd := 10, ra := 1, dec := 2, ra_sigma := 0, dec_sigma := 0
    mag := 5, mag_sigma := 1/10 }

/-- A second concrete observation at the frame epoch. -/
def wObsB : Observation :=
  { id := "b", mjd := 10, ra := 1, dec := 2, ra_sigma := 0, dec_sigma := 0
    mag := 5, mag_sigma := 1/10 }

/-- A concrete observation at MJD 10.1: inside the frame's exposure span
(start 9.8, duration 0.4 day) but outside the queried interval of the
concrete runs below. -/
def cObsLate : Observation :=
  { id := "c", mjd := 101/10, ra := 1, dec := 2, ra_sigma := 0, dec_sigma := 0
    mag := 5, mag_sigma := 1/10 }

/-- The query ephemeris the concrete environment produces at epoch 10. -/
def wEphem10 : Ephemeris := { mjd := 10, ra := 0, dec := 0, ra_velocity := 0, dec_velocity := 0 }

/-- A concrete environment: a trivial propagation collaborator (ephemerides
at the requested epochs at the origin, zero angular separations) over a
store holding the single frame `wFrame` with two observations sharing the
frame epoch. -/
def wEnv : Env Unit :=
  { haversine := fun _ _ _ _ => 0
    radecToHealpixel := fun _ _ _ => 0
    propagate := fun _ ms _ _ => ms.map (fun _ => ())
    computeEphemeris := fun _ _ ms _ _ =>
      ms.map (fun m => { mjd := m, ra := 0, dec := 0, ra_velocity := 0, dec_velocity := 0 })
    mjdBounds := some (0, 10)
    windowCenters := fun s e _ => if s ≤ 7 ∧ 7 ≤ e then [(7, "X")] else []
    propagationTargets := fun s e oc =>
      if s ≤ 10 ∧ 10 ≤ e ∧ oc = "X" then [(10, [0])] else []
    getFrames := fun oc m hp =>
      if oc = "X" ∧ m = 10 ∧ hp = 0 then [wFrame] else []
    getFramesForRaDec := fun _ _ _ => [wFrame]
    iterateObservations := fun f => if f = wFrame then [wObsA, wObsB] else []
    healpixNside := 32 }

/-- The same store but with per-observation timestamps inside the frame: one
observation at the frame epoch and one a day later. -/
def cexEnv : Env Unit :=
  { wEnv with iterateObservations := fun f => if f = wFrame then [wObsA, cObsLate] else [] }

/-- A concrete environment over a store with zero frames. -/
def emptyEnv : Env Unit :=
  { wEnv with mjdBounds := none, windowCenters := fun _ _ _ => [] }

/-- The candidate the concrete run emits for `wObsA`. -/
def wPCa : PrecoveryCandidate :=
  PrecoveryCandidate.fromObservedEphem wEnv wObsA wFrame wEphem10

/-- The candidate the concrete run emits for `wObsB`. -/
def wPCb : PrecoveryCandidate :=
  PrecoveryCandidate.fromObservedEphem wEnv wObsB wFrame wEphem10

/-- The result of the concrete `precover` run on `wEnv`. -/
def wResList : List Candidate :=
  [Candidate.precovery wPCa, Candidate.precovery wPCb]

/-! Helper lemmas. -/

theorem mem_sortCandidates {c : Candidate} {l : List Candidate} :
    c ∈ sortCandidates l ↔ c ∈ l :=
  (List.perm_insertionSort candLE l).mem_iff

theorem sortCandidates_sorted (l : List Candidate) :
    List.Pairwise candLE (sortCandidates l) :=
  List.sorted_insertionSort candLE l

theorem mem_keepStage_mjd {targets : List (ℚ × List Nat)}
    {approxHealpixels : List Nat} {m : ℚ} {hp : Nat}
    (h : (m, hp) ∈ keepStage targets approxHealpixels) :
    ∃ hps, (m, hps) ∈ targets := by
  unfold keepStage at h
  rcases List.mem_filterMap.mp h with ⟨t, ht, heq⟩
  by_cases hc : t.2.2 ∈ t.2.1
  · rw [if_pos hc] at heq
    have hm : t.1 = m := congrArg Prod.fst (Option.some.inj heq)
    have h1 : t.1 ∈ targets.map (fun t => t.1) := (List.of_mem_zip ht).1
    rcases List.mem_map.mp h1 with ⟨tg, htg, htg1⟩
    refine ⟨tg.2, ?_⟩
    have hEq : (m, tg.2) = tg := by
      have : m = tg.1 := (htg1.trans hm).symm
      exact Prod.ext this rfl
    rwa [hEq]
  · rw [if_neg hc] at heq
    exact absurd heq (Option.noConfusion)

theorem keepStage_eq_keepSpec (targets : List (ℚ × List Nat))
    (approxHealpixels : List Nat) :
    keepStage targets approxHealpixels = keepSpec targets approxHealpixels := by
  induction targets generalizing approxHealpixels with
  | nil => simp [keepStage, keepSpec]
  | cons t ts ih =>
    cases approxHealpixels with
    | nil => simp [keepStage, keepSpec]
    | cons p ps =>
      by_cases hc : p ∈ t.2
      · simpa [keepStage, keepSpec, hc] using ih ps
      · simpa [keepStage, keepSpec, hc] using ih ps

theorem findMatchesUsingPerObsTimestamps_sound {O : Type} {env : Env O}
    {frame : HealpixFrame} {orbit : O} {observations : List Observation}
    {tolerance : ℚ} {pc : PrecoveryCandidate}
    (hsymm : ∀ a b c d, env.haversine a b c d = env.haversine b a d c)
    (h : pc ∈ findMatchesUsingPerObsTimestamps env frame orbit observations tolerance) :
    env.haversine pc.ra_deg pc.pred_ra_deg pc.dec_deg pc.pred_dec_deg < tolerance ∧
    pc.distance_arcsec =
      env.haversine pc.ra_deg pc.pred_ra_deg pc.dec_deg pc.pred_dec_deg / ARCSEC := by
  simp only [findMatchesUsingPerObsTimestamps] at h
  rcases hp : env.propagate orbit
      [(observations.map (fun o => o.mjd)).sum / (observations.length : ℚ)]
      PropagationIntegrator.nBody EpochTimescale.utc with _ | ⟨st, rest⟩
  · rw [hp] at h
    simp at h
  · rw [hp] at h
    rcases List.mem_map.mp h with ⟨p, hpmem, hpc⟩
    have hfil := List.mem_filter.mp hpmem
    have hlt := of_decide_eq_true hfil.2
    subst hpc
    constructor
    · simpa [PrecoveryCandidate.fromObservedEphem, hsymm p.2.ra p.1.ra p.2.dec p.1.dec]
        using hlt
    · simp [PrecoveryCandidate.fromObservedEphem]

theorem findMatchesInFrame_sound {O : Type} {env : Env O}
    {frame : HealpixFrame} {orbit : O} {ephem : Ephemeris} {tolerance : ℚ}
    {pc : PrecoveryCandidate}
    (hsymm : ∀ a b c d, env.haversine a b c d = env.haversine b a d c)
    (h : pc ∈ findMatchesInFrame env frame orbit ephem tolerance) :
    env.haversine pc.ra_deg pc.pred_ra_deg pc.dec_deg pc.pred_dec_deg < tolerance ∧
    pc.distance_arcsec =
      env.haversine pc.ra_deg pc.pred_ra_deg pc.dec_deg pc.pred_dec_deg / ARCSEC := by
  simp only [findMatchesInFrame] at h
  by_cases hall :
      ((env.iterateObservations frame).all fun o => decide (o.mjd = ephem.mjd)) = true
  · rw [hall] at h
    simp only [Bool.not_true, Bool.false_eq_true, if_false] at h
    rcases List.mem_map.mp h with ⟨o, homem, hpc⟩
    have hfil := List.mem_filter.mp homem
    have hlt := of_decide_eq_true hfil.2
    subst hpc
    constructor
    · simpa [PrecoveryCandidate.fromObservedEphem, Ephemeris.distance,
        hsymm ephem.ra o.ra ephem.dec o.dec] using hlt
    · simp [PrecoveryCandidate.fromObservedEphem]
  · rw [Bool.not_eq_true] at hall
    rw [hall] at h
    simp only [Bool.not_false, if_true] at h
    exact findMatchesUsingPerObsTimestamps_sound hsymm h

theorem findMatchesUsingPerObsTimestamps_frame {O : Type} {env : Env O}
    {frame : HealpixFrame} {orbit : O} {observations : List Observation}
    {tolerance : ℚ} {pc : PrecoveryCandidate}
    (h : pc ∈ findMatchesUsingPerObsTimestamps env frame orbit observations tolerance) :
    pc.exposure_mjd_mid = frame.exposure_mjd_mid := by
  simp only [findMatchesUsingPerObsTimestamps] at h
  rcases hp : env.propagate orbit
      [(observations.map (fun o => o.mjd)).sum / (observations.length : ℚ)]
      PropagationIntegrator.nBody EpochTimescale.utc with _ | ⟨st, rest⟩
  · rw [hp] at h
    simp at h
  · rw [hp] at h
    rcases List.mem_map.mp h with ⟨p, _, hpc⟩
    subst hpc
    simp [PrecoveryCandidate.fromObservedEphem]

theorem findMatchesInFrame_frame {O : Type} {env : Env O}
    {frame : HealpixFrame} {orbit : O} {ephem : Ephemeris} {tolerance : ℚ}
    {pc : PrecoveryCandidate}
    (h : pc ∈ findMatchesInFrame env frame orbit ephem tolerance) :
    pc.exposure_mjd_mid = frame.exposure_mjd_mid := by
  simp only [findMatchesInFrame] at h
  by_cases hall :
      ((env.iterateObservations frame).all fun o => decide (o.mjd = ephem.mjd)) = true
  · rw [hall] at h
    simp only [Bool.not_true, Bool.false_eq_true, if_false] at h
    rcases List.mem_map.mp h with ⟨o, _, hpc⟩
    subst hpc
    simp [PrecoveryCandidate.fromObservedEphem]
  · rw [Bool.not_eq_true] at hall
    rw [hall] at h
    simp only [Bool.not_false, if_true] at h
    exact findMatchesUsingPerObsTimestamps_frame h

theorem mem_frameOutput {O : Type} {env : Env O} {orbit : O}
    {ephem : Ephemeris} {tolerance : ℚ} {includeFrameCandidates : Bool}
    {f : HealpixFrame} {c : Candidate}
    (h : c ∈ frameOutput env orbit ephem tolerance includeFrameCandidates f) :
    (∃ pc, c = Candidate.precovery pc ∧
      pc ∈ findMatchesInFrame env f orbit ephem tolerance) ∨
    (c = Candidate.frame (FrameCandidate.fromFrame env f ephem) ∧
      findMatchesInFrame env f orbit ephem tolerance = [] ∧
      includeFrameCandidates = true) := by
  simp only [frameOutput] at h
  rcases List.mem_append.mp h with h1 | h2
  · rcases List.mem_map.mp h1 with ⟨pc, hpc, hc⟩
    exact Or.inl ⟨pc, hc.symm, hpc⟩
  · by_cases hcond :
        ((findMatchesInFrame env f orbit ephem tolerance).isEmpty
          && includeFrameCandidates) = true
    · rw [hcond] at h2
      simp only [if_true, List.mem_singleton] at h2
      rcases Bool.and_eq_true_iff.mp hcond with ⟨hemp, hinc⟩
      exact Or.inr ⟨h2, List.isEmpty_iff.mp hemp, hinc⟩
    · rw [Bool.not_eq_true] at hcond
      rw [hcond] at h2
      simp at h2

theorem mem_checkFrames {O : Type} {env : Env O} {orbit : O}
    {healpixels : List Nat} {obscode : String} {mjds : List ℚ}
    {tolerance : ℚ} {includeFrameCandidates : Bool} {c : Candidate}
    (h : c ∈ checkFrames env orbit healpixels obscode mjds tolerance
      includeFrameCandidates) :
    ∃ ephem mjd hp f,
      (mjd, hp) ∈ mjds.zip healpixels ∧
      f ∈ env.getFrames obscode mjd hp ∧
      c ∈ frameOutput env orbit ephem tolerance includeFrameCandidates f := by
  simp only [checkFrames] at h
  rcases List.mem_flatMap.mp h with ⟨t, ht, hc⟩
  rcases List.mem_flatMap.mp hc with ⟨f, hf, hcf⟩
  exact ⟨t.1, t.2.1, t.2.2, f, by simpa using (List.of_mem_zip ht).2, hf, hcf⟩

theorem mem_windowBody {O : Type} {env : Env O} {obscode : String}
    {tolerance : ℚ} {startMjd endMjd : Option ℚ} {windowSize : ℚ}
    {includeFrameCandidates : Bool} {orbitWindow : O} {windowMidpoint : ℚ}
    {c : Candidate}
    (h : c ∈ windowBody env obscode tolerance startMjd endMjd windowSize
      includeFrameCandidates orbitWindow windowMidpoint) :
    ∃ healpixels mjds,
      c ∈ checkFrames env orbitWindow healpixels obscode mjds tolerance
        includeFrameCandidates := by
  simp only [windowBody] at h
  split at h
  · exact ⟨_, _, h⟩
  · simp at h

theorem mem_checkWindows {O : Type} {env : Env O} {orbit : O}
    {windowMidpoints : List ℚ} {obscode : String} {tolerance : ℚ}
    {startMjd endMjd : Option ℚ} {windowSize : ℚ}
    {includeFrameCandidates : Bool} {c : Candidate}
    (h : c ∈ checkWindows env orbit windowMidpoints obscode tolerance
      startMjd endMjd windowSize includeFrameCandidates) :
    ∃ orbitWindow windowMidpoint,
      c ∈ windowBody env obscode tolerance startMjd endMjd windowSize
        includeFrameCandidates orbitWindow windowMidpoint := by
  simp only [checkWindows] at h
  rcases List.mem_flatMap.mp h with ⟨t, _, hc⟩
  exact ⟨t.2.2.2, t.1, hc⟩

theorem mem_precoverCore {O : Type} {env : Env O} {orbit : O}
    {tolerance startMjd endMjd windowSize : ℚ} {includeFrameCandidates : Bool}
    {c : Candidate}
    (h : c ∈ precoverCore env orbit tolerance startMjd endMjd windowSize
      includeFrameCandidates) :
    ∃ g ∈ groupConsec (env.windowCenters startMjd endMjd windowSize),
      c ∈ checkWindows env orbit g.2 g.1 tolerance (some startMjd) (some endMjd)
        windowSize includeFrameCandidates := by
  simp only [precoverCore] at h
  split at h
  · exact List.mem_flatMap.mp (mem_sortCandidates.mp h)
  · exact List.mem_flatMap.mp h

theorem precover_ok {O : Type} {env : Env O} {orbit : O} {tolerance : ℚ}
    {startMjd endMjd : Option ℚ} {windowSize : ℚ}
    {includeFrameCandidates : Bool} {res : List Candidate}
    (h : precover env orbit tolerance startMjd endMjd windowSize
      includeFrameCandidates = .ok res) :
    ∃ s e, res = precoverCore env orbit tolerance s e windowSize
      includeFrameCandidates := by
  rcases startMjd with _ | s <;> rcases endMjd with _ | e
  · simp only [precover] at h
    rcases hb : env.mjdBounds with _ | b <;> rw [hb] at h
    · simp at h
    · exact ⟨b.1, b.2, (Except.ok.inj h).symm⟩
  · simp only [precover] at h
    rcases hb : env.mjdBounds with _ | b <;> rw [hb] at h
    · simp at h
    · exact ⟨b.1, e, (Except.ok.inj h).symm⟩
  · simp only [precover] at h
    rcases hb : env.mjdBounds with _ | b <;> rw [hb] at h
    · simp at h
    · exact ⟨s, b.2, (Except.ok.inj h).symm⟩
  · simp only [precover] at h
    exact ⟨s, e, (Except.ok.inj h).symm⟩

/-- The concrete `precover` run on `wEnv` returns exactly the two candidates
for the two planted observations. -/
theorem wEnv_run : precover wEnv () 1 (some 0) (some 10) 7 false = .ok wResList := by
  norm_num [precover, precoverCore, checkWindows, groupConsec, windowBody, clipStart, clipEnd, keepStage,
    checkFrames, frameOutput, findMatchesInFrame, findMatchesUsingPerObsTimestamps,
    Ephemeris.distance, sortCandidates, List.insertionSort, List.orderedInsert,
    candLE, Candidate.sortKey, wEnv, wFrame, wObsA, wObsB, wResList, wPCa, wPCb, wEphem10,
    List.filterMap_cons, List.zip_cons_cons, List.flatMap_cons, List.flatMap_nil,
    List.filter_cons, List.all_cons, PrecoveryCandidate.fromObservedEphem]
  decide

/-- C1: for every `PrecoveryCandidate` returned by `precover`, the angular
separation between its recorded predicted position and its observation is
strictly less than the supplied tolerance (an observation whose separation
equals the tolerance exactly is never emitted), both in degrees and as the
recorded arcsecond separation. -/
theorem claim1_tolerance_strict {O : Type} (env : Env O) (orbit : O)
    (tolerance : ℚ) (startMjd endMjd : Option ℚ) (windowSize : ℚ)
    (includeFrameCandidates : Bool) (res : List Candidate)
    (pc : PrecoveryCandidate)
    (hsymm : ∀ a b c d, env.haversine a b c d = env.haversine b a d c)
    (hres : precover env orbit tolerance startMjd endMjd windowSize
      includeFrameCandidates = .ok res)
    (hmem : Candidate.precovery pc ∈ res) :
    env.haversine pc.ra_deg pc.pred_ra_deg pc.dec_deg pc.pred_dec_deg < tolerance ∧
    pc.distance_arcsec < tolerance / ARCSEC := by
  rcases precover_ok hres with ⟨s, e, hcore⟩
  rw [hcore] at hmem
  rcases mem_precoverCore hmem with ⟨g, _, hcw⟩
  rcases mem_checkWindows hcw with ⟨ow, wm, hwb⟩
  rcases mem_windowBody hwb with ⟨hps, mjds, hcf⟩
  rcases mem_checkFrames hcf with ⟨ephem, mjd, hp, f, _, _, hfo⟩
  rcases mem_frameOutput hfo with ⟨pc2, hpc2, hm⟩ | ⟨habs, _, _⟩
  · have hpe : pc = pc2 := Candidate.precovery.inj hpc2
    subst hpe
    obtain ⟨h1, h2⟩ := findMatchesInFrame_sound hsymm hm
    refine ⟨h1, ?_⟩
    rw [h2]
    have hA : (0 : ℚ) < ARCSEC := by norm_num [ARCSEC, ARCMIN, DEGREE]
    exact div_lt_div_of_pos_right h1 hA
  · exact absurd habs (by simp)

/-- Witness for C1 at a concrete store and orbit. -/
theorem claim1_witness :
    wEnv.haversine wPCa.ra_deg wPCa.pred_ra_deg wPCa.dec_deg wPCa.pred_dec_deg < 1 ∧
    wPCa.distance_arcsec < 1 / ARCSEC :=
  claim1_tolerance_strict wEnv () 1 (some 0) (some 10) 7 false wResList wPCa
    (fun _ _ _ _ => rfl) wEnv_run (by simp [wResList])

/-- C2: within a frame inspection, a `FrameCandidate` is counted exactly
once when no observation matched and frame candidates were requested, and
never otherwise; and a full frame check with the flag off emits no
`FrameCandidate` at all. -/
theorem claim2_frame_candidate_exclusivity {O : Type} (env : Env O) (orbit : O)
    (ephem : Ephemeris) (tolerance : ℚ) (includeFrameCandidates : Bool)
    (f : HealpixFrame) (healpixels : List Nat) (obscode : String)
    (mjds : List ℚ) :
    ((frameOutput env orbit ephem tolerance includeFrameCandidates f).countP
        Candidate.isFrameCandidate =
      if findMatchesInFrame env f orbit ephem tolerance = [] ∧
          includeFrameCandidates = true
      then 1 else 0) ∧
    (checkFrames env orbit healpixels obscode mjds tolerance false).countP
      Candidate.isFrameCandidate = 0 := by
  constructor
  · simp only [frameOutput, List.countP_append]
    have h1 : ((findMatchesInFrame env f orbit ephem tolerance).map
        Candidate.precovery).countP Candidate.isFrameCandidate = 0 := by
      rw [List.countP_eq_zero]
      intro a ha
      rcases List.mem_map.mp ha with ⟨pc, _, hpc⟩
      subst hpc
      simp [Candidate.isFrameCandidate]
    rw [h1, Nat.zero_add]
    by_cases hms : findMatchesInFrame env f orbit ephem tolerance = [] <;>
      by_cases hinc : includeFrameCandidates = true <;>
      simp [hms, hinc, List.isEmpty_iff, Candidate.isFrameCandidate]
  · rw [List.countP_eq_zero]
    intro c hc
    rcases mem_checkFrames hc with ⟨ephem2, mjd, hp, f2, _, _, hfo⟩
    rcases mem_frameOutput hfo with ⟨pc, hpc, _⟩ | ⟨_, _, habs⟩
    · subst hpc
      simp [Candidate.isFrameCandidate]
    · exact absurd habs (by simp)

/-- C3: the list returned by `precover` is always sorted ascending by
(time-key, tie-break): observation epoch and observation id for a
`PrecoveryCandidate`, exposure midpoint and the empty string for a
`FrameCandidate`. -/
theorem claim3_sorted {O : Type} (env : Env O) (orbit : O) (tolerance : ℚ)
    (startMjd endMjd : Option ℚ) (windowSize : ℚ)
    (includeFrameCandidates : Bool) (res : List Candidate)
    (hres : precover env orbit tolerance startMjd endMjd windowSize
      includeFrameCandidates = .ok res) :
    List.Pairwise candLE res := by
  rcases precover_ok hres with ⟨s, e, hcore⟩
  subst hcore
  simp only [precoverCore]
  split
  · exact sortCandidates_sorted _
  · next hl =>
      rw [List.length_eq_zero.mp (Nat.eq_zero_of_not_pos hl)]
      exact List.Pairwise.nil

/-- Witness for C3: the concrete run's output is sorted. -/
theorem claim3_witness : List.Pairwise candLE wResList :=
  claim3_sorted wEnv () 1 (some 0) (some 10) 7 false wResList wEnv_run

/-- C4 (amended): against a store with zero frames, `precover` returns an
empty list and does not raise when both bounds are supplied; when either
bound is omitted it surfaces the `EmptyIndex` failure of `mjd_bounds`. -/
theorem claim4_empty_store {O : Type} (env : Env O) (orbit : O)
    (tolerance : ℚ) (windowSize : ℚ) (includeFrameCandidates : Bool)
    (s e : ℚ) (sOpt eOpt : Option ℚ)
    (hempty : IndexEmpty env) (hnone : sOpt = none ∨ eOpt = none) :
    precover env orbit tolerance (some s) (some e) windowSize
      includeFrameCandidates = .ok [] ∧
    precover env orbit tolerance sOpt eOpt windowSize
      includeFrameCandidates = .error .emptyIndex := by
  obtain ⟨hb, hw⟩ := hempty
  constructor
  · simp [precover, precoverCore, hw, groupConsec]
  · rcases hnone with h | h
    · subst h
      cases eOpt <;> simp [precover, hb]
    · subst h
      cases sOpt <;> simp [precover, hb]

/-- Counterexample to C4 as stated: on a store with zero frames, a
`precover` call with the bounds omitted surfaces `EmptyIndex` instead of
returning an empty list. -/
theorem claim4_counterexample :
    precover emptyEnv () 1 none none 7 false = .error .emptyIndex ∧
    precover emptyEnv () 1 none none 7 false ≠ .ok [] := by
  have h : precover emptyEnv () 1 none none 7 false = .error .emptyIndex := by
    norm_num [precover, emptyEnv, wEnv]
  refine ⟨h, ?_⟩
  rw [h]
  exact fun hh => Except.noConfusion hh

/-- Witness for C4's amended theorem at a concrete empty store. -/
theorem claim4_witness :
    precover emptyEnv () 1 (some 0) (some 10) 7 false = .ok [] ∧
    precover emptyEnv () 1 none none 7 false = .error .emptyIndex :=
  claim4_empty_store emptyEnv () 1 7 false 0 10 none none
    ⟨rfl, fun _ _ _ => rfl⟩ (Or.inl rfl)

/-- C5: frame inspection branches solely on whether every observation's
epoch equals the query ephemeris epoch exactly; when all are equal the
single ephemeris is compared against all observations in one batch, and
otherwise the orbit is propagated with the high-fidelity integrator to the
frame's mean observation epoch and cheap-integrator ephemerides are
computed at each individual observation epoch, with the same strict
tolerance test. -/
theorem claim5_epoch_branching {O : Type} (env : Env O) (frame : HealpixFrame)
    (orbit : O) (ephem : Ephemeris) (tolerance : ℚ) :
    findMatchesInFrame env frame orbit ephem tolerance =
      matchesInFrameSpec env frame orbit ephem tolerance := by
  by_cases h : ∀ o ∈ env.iterateObservations frame, o.mjd = ephem.mjd
  · have hall : ((env.iterateObservations frame).all
        fun o => decide (o.mjd = ephem.mjd)) = true := by
      rw [List.all_eq_true]
      intro o ho
      exact decide_eq_true (h o ho)
    simp only [findMatchesInFrame, matchesInFrameSpec]
    rw [if_pos h, hall]
    simp
  · have hall : ((env.iterateObservations frame).all
        fun o => decide (o.mjd = ephem.mjd)) = false := by
      rw [Bool.eq_false_iff]
      intro hc
      exact h (fun o ho => of_decide_eq_true (List.all_eq_true.mp hc o ho))
    simp only [findMatchesInFrame, matchesInFrameSpec]
    rw [if_neg h, hall]
    simp [findMatchesUsingPerObsTimestamps]

/-- The window guard of `_check_windows` phrased on the kept list itself. -/
theorem windowGuard_eq (k : List (ℚ × Nat)) (X : List Candidate) :
    (if 0 < (k.map (fun x => x.1)).length then X else []) =
      (if k = [] then [] else X) := by
  cases k <;> simp

/-- C6: during per-window filtering a candidate epoch is kept exactly when
the index-resolution pixel of its cheap two-body prediction is among that
epoch's occupied pixels, and only the kept epochs reach the frame
inspection stage (which recomputes ephemerides with the high-fidelity
integrator); discarded epochs get no frame inspection. -/
theorem claim6_pixel_filter {O : Type} (env : Env O) (obscode : String)
    (tolerance : ℚ) (startMjd endMjd : Option ℚ) (windowSize : ℚ)
    (includeFrameCandidates : Bool) (orbitWindow : O) (windowMidpoint : ℚ) :
    windowBody env obscode tolerance startMjd endMjd windowSize
      includeFrameCandidates orbitWindow windowMidpoint =
    windowBodySpec env obscode tolerance startMjd endMjd windowSize
      includeFrameCandidates orbitWindow windowMidpoint := by
  simp only [windowBody, windowBodySpec, keepStage_eq_keepSpec]
  exact windowGuard_eq _ _

theorem le_clipStart (s x : ℚ) : s ≤ clipStart (some s) x := by
  show s ≤ if x < s then s else x
  split_ifs with hlt
  · exact le_refl s
  · exact le_of_not_lt hlt

theorem clipEnd_le (e x : ℚ) : clipEnd (some e) x ≤ e := by
  show (if x > e then e else x) ≤ e
  split_ifs with hgt
  · exact le_refl e
  · exact le_of_not_lt hgt

theorem mem_windowBody_bounds {O : Type} {env : Env O} {obscode : String}
    {tolerance : ℚ} {s e windowSize : ℚ} {includeFrameCandidates : Bool}
    {orbitWindow : O} {windowMidpoint : ℚ} {c : Candidate}
    (htargets : ∀ a b oc m hps,
      (m, hps) ∈ env.propagationTargets a b oc → a ≤ m ∧ m ≤ b)
    (h : c ∈ windowBody env obscode tolerance (some s) (some e) windowSize
      includeFrameCandidates orbitWindow windowMidpoint) :
    ∃ mjd hp f ephem, s ≤ mjd ∧ mjd ≤ e ∧
      f ∈ env.getFrames obscode mjd hp ∧
      c ∈ frameOutput env orbitWindow ephem tolerance includeFrameCandidates f := by
  simp only [windowBody] at h
  split at h
  · rcases mem_checkFrames h with ⟨ephem, mjd, hp, f, hzip, hf, hfo⟩
    rw [List.zip_map'] at hzip
    rcases List.mem_map.mp hzip with ⟨k, hk, hkeq⟩
    have hkpair : k = (mjd, hp) := by
      rw [← hkeq]
    rw [hkpair] at hk
    rcases mem_keepStage_mjd hk with ⟨hps, htg⟩
    have hbounds := htargets _ _ _ _ _ htg
    exact ⟨mjd, hp, f, ephem,
      le_trans (le_clipStart s (windowMidpoint - windowSize / 2)) hbounds.1,
      le_trans hbounds.2 (clipEnd_le e (windowMidpoint + windowSize / 2)),
      hf, hfo⟩
  · simp at h

/-- C7 (amended): with both bounds supplied, every emitted candidate comes
from a frame whose exposure midpoint lies within the closed interval
(windows are clipped before targets are queried); however, a
`PrecoveryCandidate` produced through the per-observation-timestamp path can
carry an observation epoch outside the interval. -/
theorem claim7_bounds_amended {O : Type} (env : Env O) (orbit : O)
    (tolerance : ℚ) (s e windowSize : ℚ) (includeFrameCandidates : Bool)
    (res : List Candidate) (c : Candidate)
    (htargets : ∀ a b oc m hps,
      (m, hps) ∈ env.propagationTargets a b oc → a ≤ m ∧ m ≤ b)
    (hframes : ∀ oc m hp f, f ∈ env.getFrames oc m hp → f.exposure_mjd_mid = m)
    (hres : precover env orbit tolerance (some s) (some e) windowSize
      includeFrameCandidates = .ok res)
    (hmem : c ∈ res) :
    s ≤ c.exposureMjdMid ∧ c.exposureMjdMid ≤ e := by
  simp only [precover] at hres
  rw [← Except.ok.inj hres] at hmem
  rcases mem_precoverCore hmem with ⟨g, _, hcw⟩
  rcases mem_checkWindows hcw with ⟨ow, wm, hwb⟩
  rcases mem_windowBody_bounds htargets hwb with
    ⟨mjd, hp, f, ephem, hs, he, hf, hfo⟩
  have hfm : f.exposure_mjd_mid = mjd := hframes _ _ _ _ hf
  have hcm : c.exposureMjdMid = f.exposure_mjd_mid := by
    rcases mem_frameOutput hfo with ⟨pc, hpc, hm⟩ | ⟨hfc, _, _⟩
    · rw [hpc]
      exact findMatchesInFrame_frame hm
    · rw [hfc]
      simp [Candidate.exposureMjdMid, FrameCandidate.fromFrame]
  rw [hcm, hfm]
  exact ⟨hs, he⟩

/-- Counterexample to C7 as stated: with both bounds supplied, a frame with
per-observation timestamps can contribute a `PrecoveryCandidate` whose
observation epoch lies outside the closed interval. -/
theorem claim7_counterexample :
    ((precover cexEnv () 1 (some 0) (some 10) 7 false).toOption.getD []).any
      (fun c => decide (10 < c.assocMjd)) = true := by
  norm_num [precover, precoverCore, checkWindows, groupConsec, windowBody, clipStart, clipEnd, keepStage,
    checkFrames, frameOutput, findMatchesInFrame, findMatchesUsingPerObsTimestamps,
    Ephemeris.distance, sortCandidates, List.insertionSort, List.orderedInsert,
    candLE, Candidate.sortKey, cexEnv, wEnv, wFrame, wObsA, cObsLate, wEphem10,
    List.filterMap_cons, List.zip_cons_cons, List.flatMap_cons, List.flatMap_nil,
    List.filter_cons, List.all_cons, PrecoveryCandidate.fromObservedEphem,
    Candidate.assocMjd]
  exact ⟨_, List.mem_cons_of_mem _ (List.mem_cons_self _ _), by norm_num⟩

theorem wEnv_targets_bounds :
    ∀ a b oc m hps, (m, hps) ∈ wEnv.propagationTargets a b oc → a ≤ m ∧ m ≤ b := by
  intro a b oc m hps h
  simp only [wEnv] at h
  by_cases hc : a ≤ 10 ∧ 10 ≤ b ∧ oc = "X"
  · rw [if_pos hc] at h
    rcases List.mem_singleton.mp h with hpair
    have hm : m = 10 := congrArg Prod.fst hpair
    rw [hm]
    exact ⟨hc.1, hc.2.1⟩
  · rw [if_neg hc] at h
    simp at h

theorem wEnv_frames_epoch :
    ∀ oc m hp f, f ∈ wEnv.getFrames oc m hp → f.exposure_mjd_mid = m := by
  intro oc m hp f h
  simp only [wEnv] at h
  by_cases hc : oc = "X" ∧ m = 10 ∧ hp = 0
  · rw [if_pos hc] at h
    rw [List.mem_singleton.mp h, hc.2.1]
    simp [wFrame]
  · rw [if_neg hc] at h
    simp at h

/-- Witness for C7's amended theorem on the concrete run. -/
theorem claim7_witness :
    (0 : ℚ) ≤ (Candidate.precovery wPCa).exposureMjdMid ∧
    (Candidate.precovery wPCa).exposureMjdMid ≤ 10 :=
  claim7_bounds_amended wEnv () 1 0 10 7 false wResList
    (Candidate.precovery wPCa) wEnv_targets_bounds wEnv_frames_epoch wEnv_run
    (by simp [wResList])

/-- C8: opening an existing store whose persisted build version differs from
the running engine version fails with the version-mismatch error unless the
override is given; under the override the open succeeds and the mismatch
warning is logged. -/
theorem claim8_version_gate (buildVersion runningVersion : String)
    (create : Bool) (hne : buildVersion ≠ runningVersion) :
    fromDir true true buildVersion runningVersion create false =
      .error .versionMismatch ∧
    fromDir true true buildVersion runningVersion create true =
      .ok { createdNew := false, warnedVersionMismatch := true } := by
  constructor <;> simp [fromDir, versionGate, hne, Except.map]

/-- Witness for C8 at concrete version strings. -/
theorem claim8_witness :
    fromDir true true "0.1.0" "0.2.0" false false = .error .versionMismatch ∧
    fromDir true true "0.1.0" "0.2.0" false true =
      .ok { createdNew := false, warnedVersionMismatch := true } :=
  claim8_version_gate "0.1.0" "0.2.0" false (by decide)

/-- C9: the recorded residuals are plain coordinate differences converted to
arcseconds (no cos-declination factor on the right-ascension component), and
the recorded separation is the great-circle distance between the observed
and predicted positions converted to arcseconds. -/
theorem claim9_residuals {O : Type} (env : Env O) (obs : Observation)
    (frame : HealpixFrame) (ephem : Ephemeris) :
    (PrecoveryCandidate.fromObservedEphem env obs frame ephem).delta_ra_arcsec =
      ((PrecoveryCandidate.fromObservedEphem env obs frame ephem).ra_deg -
        (PrecoveryCandidate.fromObservedEphem env obs frame ephem).pred_ra_deg) * 3600 ∧
    (PrecoveryCandidate.fromObservedEphem env obs frame ephem).delta_dec_arcsec =
      ((PrecoveryCandidate.fromObservedEphem env obs frame ephem).dec_deg -
        (PrecoveryCandidate.fromObservedEphem env obs frame ephem).pred_dec_deg) * 3600 ∧
    (PrecoveryCandidate.fromObservedEphem env obs frame ephem).distance_arcsec =
      env.haversine (PrecoveryCandidate.fromObservedEphem env obs frame ephem).ra_deg
        (PrecoveryCandidate.fromObservedEphem env obs frame ephem).pred_ra_deg
        (PrecoveryCandidate.fromObservedEphem env obs frame ephem).dec_deg
        (PrecoveryCandidate.fromObservedEphem env obs frame ephem).pred_dec_deg * 3600 := by
  refine ⟨?_, ?_, ?_⟩ <;>
    · simp only [PrecoveryCandidate.fromObservedEphem]
      norm_num [ARCSEC, ARCMIN, DEGREE]
      ring

/-- C10: an observation is yielded by the radius query exactly when it is
yielded by the region query and its great-circle distance from the query
point is at most the tolerance (the boundary is inclusive, unlike the
strict comparison of `precover`). -/
theorem claim10_radius_region {O : Type} (env : Env O) (ra dec tolerance : ℚ)
    (obscode : String) (o : Observation) :
    o ∈ findObservationsInRadius env ra dec tolerance obscode ↔
      (o ∈ findObservationsInRegion env ra dec obscode ∧
        env.haversine o.ra ra o.dec dec ≤ tolerance) := by
  simp [findObservationsInRadius, List.mem_filter]

end Precovery
